import Mathlib

/-!
Verification of the conversational buying assistant (Slack front end `main.py`
and orchestration core `pipeline.py`) against its natural-language
specification.  The Python source is shallowly embedded: Python `str` becomes
`String`, `float` prices become `ℚ` (the prices handled are exact decimals),
Python `dict`s keyed by strings become association lists looked up
newest-entry-first (matching overwrite-on-set semantics), and the external
collaborators (LLM oracles, catalog scraper, hash function) are parameters of
the model.  Character classes `\w` and `\s` of Python's `re` module are
modelled over their ASCII cores, which covers every literal the program
compares against.
-/

/-! ## Compliance-verdict extraction (main.py)

`handle_check_compliance`, `handle_check_all_compliance` and
`handle_proceed_to_po` all run
`re.search(r"Compliance Status:[*\s]+(\w+(?:-\w+)?)", compliance_result)`
and then map the captured token through
`"Recommended" if s == "Compliant" else "Awaiting Approval" if s == "Needs Approval" else "Non Compliant"`.
-/

/-- Python `\w` (ASCII core): letters, digits, underscore. -/
def isWordChar (c : Char) : Bool := c.isAlphanum || c = '_'

/-- The character class `[*\s]` of the verdict regex. -/
def isStarOrSpace (c : Char) : Bool := c = '*' || c.isWhitespace

/-- Match a literal character list at the head of the input, returning the
remainder on success. -/
def dropLit : List Char → List Char → Option (List Char)
  | [], rest => some rest
  | _ :: _, [] => none
  | l :: ls, c :: cs => if c = l then dropLit ls cs else none

/-- Attempt the pattern `Compliance Status:[*\s]+(\w+(?:-\w+)?)` at the
current position, returning the captured group.  The optional group
`(?:-\w+)?` extends the capture with `-` and a following word run when the
next characters allow it, and matches empty otherwise. -/
def matchVerdictAt (cs : List Char) : Option (List Char) :=
  match dropLit "Compliance Status:".data cs with
  | none => none
  | some rest =>
    let sep := rest.span isStarOrSpace
    if sep.1 = [] then none
    else
      let w := sep.2.span isWordChar
      if w.1 = [] then none
      else
        match w.2 with
        | '-' :: r4 =>
          let w2 := r4.span isWordChar
          if w2.1 = [] then some w.1 else some (w.1 ++ '-' :: w2.1)
        | _ => some w.1

/-- `re.search` semantics: try the pattern at each position, leftmost match
wins. -/
def searchVerdict : List Char → Option (List Char)
  | [] => none
  | c :: cs =>
    match matchVerdictAt (c :: cs) with
    | some t => some t
    | none => searchVerdict cs

/-- `compliance_status = match.group(1) if match else "Unknown"` (main.py
lines 441-442, 741-742, 815-816). -/
def extractComplianceStatus (s : String) : String :=
  match searchVerdict s.data with
  | some t => String.mk t
  | none => "Unknown"

/-- The conditional expression mapping the extracted token to a cart status
(main.py lines 446-450, 743-747, 817-821). -/
def mapVerdict (t : String) : String :=
  if t = "Compliant" then "Recommended"
  else if t = "Needs Approval" then "Awaiting Approval"
  else "Non Compliant"

/-- Composition actually executed on a compliance narrative: extract the
token, then map it to a cart status. -/
def checkedStatus (narrative : String) : String :=
  mapVerdict (extractComplianceStatus narrative)

/-! ## parse_price (main.py lines 86-94)

`re.sub(r'[^\d.]', '', price_str)` followed by `float(...)`, with the
`except (ValueError, TypeError)` branch returning `0.0`.  After stripping,
the remaining string contains only digits and dots, so Python's `float` accepts it
exactly when it has at least one digit and at most one dot. -/

/-- The characters kept by `re.sub(r'[^\d.]', '', ...)`. -/
def isDigitOrDot (c : Char) : Bool := c.isDigit || c = '.'

/-- Value of a digit run, as `int(...)` would read it. -/
def digitsVal (l : List Char) : ℕ :=
  l.foldl (fun a c => 10 * a + (c.toNat - 48)) 0

/-- Split a character list at every `'.'`. -/
def splitDots : List Char → List (List Char)
  | [] => [[]]
  | '.' :: cs => [] :: splitDots cs
  | c :: cs =>
    match splitDots cs with
    | [] => [[c]]
    | p :: ps => (c :: p) :: ps

/-- Python `float` on a digits-and-dots string: defined exactly when there is
at most one dot and at least one digit. -/
def pyFloat (l : List Char) : Option ℚ :=
  match splitDots l with
  | [d] => if d = [] then none else some (digitsVal d : ℚ)
  | [i, f] =>
    if i = [] ∧ f = [] then none
    else some ((digitsVal i : ℚ) + (digitsVal f : ℚ) / (10 : ℚ) ^ f.length)
  | _ => none

/-- `parse_price` on a string argument: strip everything but digits and dots,
parse as float, and return `0.0` when parsing fails. -/
def parse_price (s : String) : ℚ :=
  (pyFloat (s.data.filter isDigitOrDot)).getD 0

/-- `parse_price` on an arbitrary argument: a non-string such as `None` makes
`re.sub` raise `TypeError`, which the handler catches, returning `0.0`. -/
def parse_price_total : Option String → ℚ
  | none => 0
  | some s => parse_price s

/-! ## Cart data model and purchase-order assembly (main.py)

A cart item is `{"product": {...}, "quantity": int, "compliance_status": str}`
(main.py line 1085).  Product rows always carry `id`, `title`, `price` and
`source` keys when they reach the cart (they are built by the scraper row
constructor, pipeline.py lines 606-615). -/

structure Product where
  id : String
  title : String
  price : String
  source : String
deriving DecidableEq, Repr

structure CartItem where
  product : Product
  quantity : ℕ
  compliance_status : String
deriving DecidableEq, Repr

/-- A purchase-order line item (main.py lines 118-123). -/
structure POLine where
  quantity : ℕ
  description : String
  amount_each : ℚ
  total_amount : ℚ
deriving DecidableEq, Repr

/-- The purchase-order document (main.py lines 126-136).  `lines` keeps the
vendor groups in Python-dict insertion order. -/
structure PO where
  document_type : String
  document_date : String
  document_language : String
  currency : String
  order_number : String
  lines : List (String × List POLine)
deriving DecidableEq, Repr

/-- `item["compliance_status"] in ["Recommended", "Approved"]`
(main.py line 103). -/
def isValidStatus (it : CartItem) : Bool :=
  it.compliance_status = "Recommended" || it.compliance_status = "Approved"

/-- The line built for one valid item, or `none` when
`parse_price(...) == 0.0` makes the loop `continue` (main.py lines 114-123). -/
def lineOf (it : CartItem) : Option POLine :=
  let a := parse_price it.product.price
  if a = 0 then none
  else some ⟨it.quantity, it.product.title, a, a * it.quantity⟩

/-- `if vendor not in vendor_groups: vendor_groups[vendor] = []`
(main.py lines 112-113): add an empty bucket at the end when absent. -/
def ensureGroup (gs : List (String × List POLine)) (v : String) :
    List (String × List POLine) :=
  if gs.any (fun g => g.1 = v) then gs else gs ++ [(v, [])]

/-- `vendor_groups[vendor].append({...})` (main.py line 118): append the line
to the first (unique) bucket with this vendor key. -/
def appendToGroup : List (String × List POLine) → String → POLine →
    List (String × List POLine)
  | [], v, l => [(v, [l])]
  | (k, ls) :: gs, v, l =>
    if k = v then (k, ls ++ [l]) :: gs else (k, ls) :: appendToGroup gs v l

/-- One iteration of the grouping loop (main.py lines 109-123): make sure the
vendor bucket exists, then append the line unless the price parsed to zero. -/
def insertItem (gs : List (String × List POLine)) (it : CartItem) :
    List (String × List POLine) :=
  let gs' := ensureGroup gs it.product.source
  match lineOf it with
  | none => gs'
  | some l => appendToGroup gs' it.product.source l

/-- `generate_purchase_order` (main.py lines 96-137).  `now` stands for
`int(datetime.now().timestamp())` and `today` for the formatted date; both
are inputs of the embedding because the source reads the wall clock. -/
def generate_purchase_order (now : ℕ) (today : String)
    (cart : List CartItem) : Option PO :=
  if cart = [] then none
  else
    let valid_items := cart.filter isValidStatus
    if valid_items = [] then none
    else
      some
        { document_type := "Purchase Order"
          document_date := today
          document_language := "English"
          currency := "INR"
          order_number := "PO" ++ toString now
          lines := valid_items.foldl insertItem [] }

/-- All line items of a purchase order, across vendor groups. -/
def poLineItems (po : PO) : List POLine :=
  (po.lines.map Prod.snd).flatten

/-! ## Cart/compliance/approval state machine (main.py action handlers)

Each Slack action handler mutates `user_carts[user_id]`.  The handlers locate
an item by its product id (`item["product"].get('id', ...) == product_id`)
and update the first hit.  The compliance oracle's narrative for each checked
item is an input of the transition. -/

/-- Set the compliance status of the first item whose product id matches
(the `for ... break` loops of main.py lines 619-623, 671-675, 411-415). -/
def setStatusFirst : List CartItem → String → String → List CartItem
  | [], _, _ => []
  | it :: rest, pid, s =>
    if it.product.id = pid then { it with compliance_status := s } :: rest
    else it :: setStatusFirst rest pid s

/-- Remove the first item whose product id matches (main.py lines 899-904). -/
def removeFirst : List CartItem → String → List CartItem
  | [], _ => []
  | it :: rest, pid =>
    if it.product.id = pid then rest else it :: removeFirst rest pid

/-- Re-status every item from its narrative, indexed in cart order
(`for idx, item in enumerate(cart)` of main.py lines 732-747 — note: no
filter on the current status). -/
def checkAllUpdate (narr : ℕ → String) : ℕ → List CartItem → List CartItem
  | _, [] => []
  | i, it :: rest =>
    { it with compliance_status := checkedStatus (narr i) }
      :: checkAllUpdate narr (i + 1) rest

/-- The pre-PO compliance pass of `handle_proceed_to_po` (main.py lines
805-821): only items whose status is `"In cart"` are re-checked. -/
def proceedPrecheck (narr : ℕ → String) : ℕ → List CartItem → List CartItem
  | _, [] => []
  | i, it :: rest =>
    (if it.compliance_status = "In cart"
     then { it with compliance_status := checkedStatus (narr i) } else it)
      :: proceedPrecheck narr (i + 1) rest

/-- The user/manager actions that touch a cart.  Compliance narratives are
carried by the action because they come from the external oracle. -/
inductive CartAct where
  | add (p : Product) (qty : ℕ)
  | check (pid : String) (narrative : String)
  | checkAll (narr : ℕ → String)
  | seek (pid : String)
  | accept (pid : String)
  | reject (pid : String)
  | remove (pid : String)
  | proceedPO (narr : ℕ → String)

/-- One handler invocation on a cart.
`add` is `handle_add_to_cart` (main.py line 1085);
`check` is the status update of `handle_check_compliance` (lines 440-450);
`checkAll` is `handle_check_all_compliance` (lines 729-748);
`seek` is `handle_seek_approval`, which only notifies (lines 529-607);
`accept`/`reject` are `handle_approval_accept`/`handle_approval_reject`
(lines 616-623 and 668-675);
`remove` is `handle_remove_from_cart` (lines 897-904);
`proceedPO` is the compliance pass of `handle_proceed_to_po`
(lines 803-821). -/
def cartStep (cart : List CartItem) : CartAct → List CartItem
  | .add p qty => cart ++ [⟨p, qty, "In cart"⟩]
  | .check pid narrative => setStatusFirst cart pid (checkedStatus narrative)
  | .checkAll narr => checkAllUpdate narr 0 cart
  | .seek _ => cart
  | .accept pid => setStatusFirst cart pid "Approved"
  | .reject pid => setStatusFirst cart pid "Rejected"
  | .remove pid => removeFirst cart pid
  | .proceedPO narr => proceedPrecheck narr 0 cart

/-- Run a sequence of handler invocations from a cart. -/
def cartRun (cart : List CartItem) (acts : List CartAct) : List CartItem :=
  acts.foldl cartStep cart

/-- The six statuses the specification allows. -/
def validStatuses : List String :=
  ["In cart", "Recommended", "Awaiting Approval", "Non Compliant",
   "Approved", "Rejected"]

/-! ## Preferences and the pending-query buffer (main.py)

`handle_message` / `handle_mention` route a query to `pipeline.run` only when
`user_id in user_preferences`; otherwise `pending_queries[user_id] = query`
overwrites the single buffered query (lines 1424-1426, 1317-1319).
`handle_preferences_submission` records the preferences and, when a pending
query exists, replays it once through `pipeline.run`; the statement
`del pending_queries[user_id]` sits inside the `try` block (line 1193), so the
buffer is cleared only when the replay and the delivery of its result raise no
exception. -/

structure UserSession where
  prefsSet : Bool
  pending : Option String
deriving DecidableEq, Repr

/-- Routing of one inbound message (main.py lines 1371-1434).  The second
component lists the queries passed to `pipeline.run` by this invocation. -/
def handle_message (s : UserSession) (q : String) : UserSession × List String :=
  if s.prefsSet then (s, [q])
  else ({ s with pending := some q }, [])

/-- `handle_preferences_submission` (main.py lines 1127-1203).  `replayOk`
abstracts whether the replay block (the `pipeline.run` call and the posting of
its result) completed without raising; on an exception the handler's `except`
branch runs and `del pending_queries[user_id]` is skipped. -/
def handle_preferences (s : UserSession) (replayOk : Bool) :
    UserSession × List String :=
  let s1 : UserSession := { s with prefsSet := true }
  match s1.pending with
  | none => (s1, [])
  | some q =>
    if replayOk then ({ s1 with pending := none }, [q]) else (s1, [q])

/-! ## Pipeline orchestration model (pipeline.py)

The `Pipeline` object, the Firestore `Logs` collection, the Firebase storage
bucket and the local CSV files are all state; the external collaborators
(`hashlib.md5`, the SerpAPI scraper, the LLM-driven reasoner) are an
environment of the model.  Rows of a result artifact are abstract (`R`).
Association lists are consulted newest-entry-first, so prepending models a
key overwrite. -/

/-- Newest-first lookup in an association list keyed by strings. -/
def alookup {α : Type} (l : List (String × α)) (k : String) : Option α :=
  (l.find? (fun e => e.1 = k)).map Prod.snd

/-- A Firestore `Logs` document (pipeline.py lines 117-124; the `date` and
server-timestamp fields play no role in control flow and are omitted). -/
structure LogEntry where
  query : String
  product_name : String
  csv_file_name : String
  firebase_path : String
deriving DecidableEq, Repr

/-- Outcome of one `Reasoner.process` call: `ok rows file` means the generated
pandas code ran and the (possibly empty) result rows were saved to `file`
(pipeline.py lines 990-1013); `fail` is the exception path returning `[]`
without saving (lines 1042-1044). -/
inductive RResult (R : Type) where
  | ok (rows : List R) (file : String)
  | fail

/-- The external collaborators.  `md5hex` is `hashlib.md5(...).hexdigest()`;
`scrape` is `Scraper.run` (`none` models the `""` failure return);
`reason` is the LLM code-generation-and-execution oracle applied to the
tapas query and the rows of the input CSV. -/
structure Env (R : Type) where
  md5hex : String → String
  scrape : List String → Option (String × List R)
  reason : String → List R → RResult R

/-- Generated file names are never the empty string: the scraper writes
`f"{prefix}_data.csv"` (pipeline.py line 629) and the reasoner writes
`f"query_result_{...}.csv"` (lines 886, 1010). -/
def Env.WF {R : Type} (env : Env R) : Prop :=
  (∀ kws f rows, env.scrape kws = some (f, rows) → f ≠ "") ∧
  (∀ tq rs rows f, env.reason tq rs = RResult.ok rows f → f ≠ "")

/-- The mutable state of one session: the `Pipeline` attributes (pipeline.py
lines 1367-1373), the reasoner's `last_generated_csv` (line 973), the local
file system, the storage bucket, the `Logs` collection, and a ghost counter
of scraper invocations. -/
structure PState (R : Type) where
  previous_csv_file : String
  original_csv_file : String
  last_results : List R
  current_product_name : Option String
  csv_chain : List String
  last_generated_csv : Option String
  files : List (String × List R)
  storage : List (String × List R)
  logs : List (String × LogEntry)
  scrapeCalls : ℕ
deriving Repr

/-- What a handler returns to the caller: a result list or a prose message
(never a propagated exception — every handler body is wrapped in
`try`/`except` returning a string). -/
inductive Outcome (R : Type) where
  | results (rows : List R)
  | message (text : String)
deriving Repr

/-- Python `str.lower` (ASCII core), character by character. -/
def pyLower (s : String) : String :=
  String.mk (s.data.map Char.toLower)

/-- Python `str.strip`: drop leading and trailing whitespace. -/
def pyStrip (s : String) : String :=
  String.mk
    (((s.data.dropWhile Char.isWhitespace).reverse.dropWhile
        Char.isWhitespace).reverse)

/-- The normalization `query.lower().strip()` applied before hashing. -/
def normalizeQuery (q : String) : String := pyStrip (pyLower q)

/-- `FirebaseManager.generate_query_hash` (pipeline.py lines 90-92):
`hashlib.md5(query.lower().strip().encode()).hexdigest()`. -/
def generate_query_hash {R : Type} (env : Env R) (q : String) : String :=
  env.md5hex (normalizeQuery q)

/-- `FirebaseManager.check_query_exists` (pipeline.py lines 139-164). -/
def check_query_exists {R : Type} (env : Env R) (st : PState R) (q : String) :
    Option LogEntry :=
  alookup st.logs (generate_query_hash env q)

/-- A plan step, per the planner's JSON shapes (pipeline.py lines 393-425). -/
inductive Step where
  | scrape (keywords : List String)
  | reason (tapas_query : String)

/-- A plan as the router consumes it: the original query stored at
pipeline.py line 1401 plus the agent steps. -/
structure Plan where
  original_query : String
  steps : List Step

/-- `Reasoner.process` (pipeline.py lines 976-1044) on the session state:
reads the input CSV (a missing file raises `FileNotFoundError`, caught to
`[]`), runs the oracle, and on success writes the result CSV, records it in
`last_generated_csv`, and uploads it to storage under
`Data/{product_name}/{file}` when a product name is set. -/
def reasoner_process {R : Type} (env : Env R) (st : PState R)
    (tq : String) (csv : String) : List R × PState R :=
  match alookup st.files csv with
  | none => ([], st)
  | some input =>
    match env.reason tq input with
    | RResult.fail => ([], st)
    | RResult.ok rows f =>
      (rows,
       { st with
         files := (f, rows) :: st.files
         last_generated_csv := some f
         storage :=
           match st.current_product_name with
           | some p => ("Data/" ++ p ++ "/" ++ f, rows) :: st.storage
           | none => st.storage })

/-- Result of the `for step in plan["steps"]` loop of `_handle_new_query`
(pipeline.py lines 1513-1547): either an early return, or the final state
together with the loop-carried `csv_file`, `results` and
`reasoned_csv_file` variables. -/
inductive StepsOut (R : Type) where
  | early (o : Outcome R) (st : PState R)
  | done (st : PState R) (csv : String) (results : List R) (reasoned : String)

/-- The step loop of `_handle_new_query`.  A scraper step records the product
name, counts one scraper invocation, and on success writes the scraped CSV,
uploads it, and re-roots the chain (lines 1517-1528); a reasoner step calls
`Reasoner.process` and, when `get_last_csv_file()` names an existing file,
advances `previous_csv_file` and appends to the chain (lines 1530-1547). -/
def execSteps {R : Type} (env : Env R) (st : PState R) :
    List Step → String → List R → String → StepsOut R
  | [], csv, results, reasoned => StepsOut.done st csv results reasoned
  | Step.scrape kws :: rest, _, results, reasoned =>
    let p := String.intercalate "_" kws
    let st1 := { st with current_product_name := some p,
                         scrapeCalls := st.scrapeCalls + 1 }
    match env.scrape kws with
    | none =>
      StepsOut.early
        (Outcome.message "❌ Failed to scrape product data. Please try again.")
        st1
    | some (f, rows) =>
      let st2 := { st1 with
                   files := (f, rows) :: st1.files
                   storage := ("Data/" ++ p ++ "/" ++ f, rows) :: st1.storage
                   original_csv_file := f
                   previous_csv_file := f
                   csv_chain := [f] }
      execSteps env st2 rest f results reasoned
  | Step.reason tq :: rest, csv, _, reasoned =>
    let r := reasoner_process env st tq csv
    let st1 := r.2
    let reasoned1 :=
      match st1.last_generated_csv with
      | some f => f
      | none => reasoned
    let st2 :=
      match st1.last_generated_csv with
      | some f =>
        if (alookup st1.files f).isSome then
          { st1 with previous_csv_file := f,
                     csv_chain := st1.csv_chain ++ [f] }
        else st1
      | none => st1
    execSteps env st2 rest csv r.1 reasoned1

/-- The guarded `log_query_to_firestore` call at the end of
`_handle_new_query` (pipeline.py lines 1552-1559): only when a reasoned CSV
name and a product name are available. -/
def logQueryIfNeeded {R : Type} (env : Env R) (q : String) (reasoned : String)
    (st : PState R) : PState R :=
  match st.current_product_name with
  | some p =>
    if reasoned = "" then st
    else
      { st with
        logs := (generate_query_hash env q,
                 ⟨q, p, reasoned, "Data/" ++ p ++ "/" ++ reasoned⟩) :: st.logs }
  | none => st

/-- `_handle_new_query` after the cache check (pipeline.py lines 1508-1563):
run the steps; an empty result list is the terminal "no products found"
outcome (reached after the chain update); otherwise the query is logged to
Firestore under the hash of the original query
(`log_query_to_firestore`, lines 94-137) and the results are returned. -/
def runNewSteps {R : Type} (env : Env R) (st : PState R) (plan : Plan) :
    Outcome R × PState R :=
  match execSteps env st plan.steps "" [] "" with
  | StepsOut.early o st1 => (o, st1)
  | StepsOut.done st1 _ results reasoned =>
    if results.isEmpty then
      (Outcome.message "❌ No products found matching your criteria.", st1)
    else
      (Outcome.results results,
       { logQueryIfNeeded env plan.original_query reasoned st1 with
         last_results := results })

/-- `Pipeline._handle_new_query` (pipeline.py lines 1481-1567).  A cache hit
(`check_query_exists`) followed by a successful storage download serves the
cached rows, re-rooting the chain at the downloaded file (lines 1484-1506);
a miss or failed download falls through to the step loop. -/
def handle_new_query {R : Type} (env : Env R) (st : PState R) (plan : Plan) :
    Outcome R × PState R :=
  match check_query_exists env st plan.original_query with
  | some entry =>
    let localFile := "cached_" ++ entry.csv_file_name
    match alookup st.storage entry.firebase_path with
    | some rows =>
      (Outcome.results rows,
       { st with
         files := (localFile, rows) :: st.files
         last_results := rows
         previous_csv_file := localFile
         original_csv_file := localFile
         current_product_name := some entry.product_name
         csv_chain := [localFile] })
    | none => runNewSteps env st plan
  | none => runNewSteps env st plan

/-- `Pipeline._handle_follow_up` (pipeline.py lines 1433-1479).  With no
usable previous CSV it re-dispatches the same plan to `_handle_new_query`
(lines 1436-1440).  Otherwise it filters the previous CSV; an empty result
returns before any chain mutation (lines 1452-1453); on success the chain is
extended with the newly generated CSV, which is uploaded once more under the
"filtered" kind (lines 1455-1475).  A plan whose first step is not a
reasoner step makes `step["args"]["tapas_query"]` raise, landing in the
`except` branch (lines 1477-1479). -/
def handle_follow_up {R : Type} (env : Env R) (st : PState R) (plan : Plan) :
    Outcome R × PState R :=
  if st.previous_csv_file = "" ∨ (alookup st.files st.previous_csv_file).isNone
  then handle_new_query env st plan
  else
    match plan.steps.head? with
    | some (Step.reason tq) =>
      let r := reasoner_process env st tq st.previous_csv_file
      let st1 := r.2
      if r.1.isEmpty then
        (Outcome.message "❌ No products match your filter criteria.", st1)
      else
        let st2 :=
          match st1.last_generated_csv with
          | some f =>
            if (alookup st1.files f).isSome then
              { st1 with
                previous_csv_file := f
                csv_chain := st1.csv_chain ++ [f]
                storage :=
                  match st1.current_product_name with
                  | some p => ("Data/" ++ p ++ "/" ++ f, r.1) :: st1.storage
                  | none => st1.storage }
            else st1
          | none => st1
        (Outcome.results r.1, { st2 with last_results := r.1 })
    | _ =>
      (Outcome.message
        "I apologize, but I couldn't filter the previous results: bad plan",
       st)

/-! ## Witness data and chain invariants -/

/-- All line items across the vendor groups of a grouping accumulator. -/
def groupsFlat (gs : List (String × List POLine)) : List POLine :=
  (gs.map Prod.snd).flatten

/-- A concrete cart used by witnesses: one `Recommended` item, one `Approved`
item with an unparseable price, one `Approved` item, one item still in the
cart. -/
def demoCart : List CartItem :=
  [⟨⟨"p1", "Mouse", "₹100", "amazon"⟩, 2, "Recommended"⟩,
   ⟨⟨"p2", "Pen", "free", "flipkart"⟩, 1, "Approved"⟩,
   ⟨⟨"p3", "Desk", "₹50", "amazon"⟩, 3, "Approved"⟩,
   ⟨⟨"p4", "Chair", "₹10", "croma"⟩, 1, "In cart"⟩]

/-- The purchase order the embedding produces for `demoCart`: the zero-priced
pen is dropped (its vendor group stays, empty), the in-cart chair is not
eligible. -/
def demoPO : PO :=
  { document_type := "Purchase Order"
    document_date := "01-01-2026"
    document_language := "English"
    currency := "INR"
    order_number := "PO5"
    lines := [("amazon",
               [⟨2, "Mouse", parse_price "₹100", parse_price "₹100" * (2 : ℕ)⟩,
                ⟨3, "Desk", parse_price "₹50", parse_price "₹50" * (3 : ℕ)⟩]),
              ("flipkart", [])] }

/-- A concrete environment over `ℕ`-rows for the pipeline witnesses: the
scraper returns two rows, the reasoner keeps the rows of its input and names
its output file after the tapas query. -/
def env0 : Env ℕ :=
  { md5hex := fun s => "md5:" ++ s
    scrape := fun _ => some ("mouse_data.csv", [1, 2])
    reason := fun tq rows => RResult.ok rows ("result_" ++ tq ++ ".csv") }

/-- An empty initial session state. -/
def pst0 : PState ℕ :=
  { previous_csv_file := ""
    original_csv_file := ""
    last_results := []
    current_product_name := none
    csv_chain := []
    last_generated_csv := none
    files := []
    storage := []
    logs := []
    scrapeCalls := 0 }

/-- The standard New plan used by the pipeline witnesses. -/
def plan1 : Plan :=
  ⟨"Find Mouse", [Step.scrape ["mouse"], Step.reason "q1"]⟩

/-- The session state after running `plan1` from the empty state under
`env0`. -/
def pst1 : PState ℕ :=
  { previous_csv_file := "result_q1.csv"
    original_csv_file := "mouse_data.csv"
    last_results := [1, 2]
    current_product_name := some "mouse"
    csv_chain := ["mouse_data.csv", "result_q1.csv"]
    last_generated_csv := some "result_q1.csv"
    files := [("result_q1.csv", [1, 2]), ("mouse_data.csv", [1, 2])]
    storage := [("Data/mouse/result_q1.csv", [1, 2]),
                ("Data/mouse/mouse_data.csv", [1, 2])]
    logs := [("md5:find mouse",
              ⟨"Find Mouse", "mouse", "result_q1.csv",
               "Data/mouse/result_q1.csv"⟩)]
    scrapeCalls := 1 }

/-! ## Artifact-chain invariants (Claim C7) -/

/-- The rows recorded in a CSV file (empty when the file is absent). -/
def rowsOf {R : Type} (files : List (String × List R)) (f : String) :
    List R :=
  (alookup files f).getD []

/-- Adjacent subset property along the chain: each artifact's row set is
contained in its immediate predecessor's. -/
def chainSubsets {R : Type} (files : List (String × List R)) :
    List String → Prop
  | a :: b :: rest => rowsOf files b ⊆ rowsOf files a
      ∧ chainSubsets files (b :: rest)
  | _ => True

/-- Session invariant tying the chain to the file system: the chain is
nonempty, its tail is the active CSV, every chain entry names a nonempty,
existing file, and adjacent row sets shrink. -/
def ChainInv {R : Type} (st : PState R) : Prop :=
  st.csv_chain ≠ []
  ∧ st.csv_chain.getLast? = some st.previous_csv_file
  ∧ (∀ f ∈ st.csv_chain, f ≠ "" ∧ (alookup st.files f).isSome)
  ∧ chainSubsets st.files st.csv_chain

/-- The filter collaborator's contract (spec §4.3/§6): a filtering step
narrows, never widens, its input row set. -/
def ReasonShrinks {R : Type} (env : Env R) : Prop :=
  ∀ tq rs rows f, env.reason tq rs = RResult.ok rows f → rows ⊆ rs

/-- One successful follow-up whose freshly generated CSV name (timestamped in
the source) does not collide with a chain entry. -/
def FreshFollowUp {R : Type} (env : Env R) (st st' : PState R) (p : Plan) :
    Prop :=
  (∃ rows, handle_follow_up env st p = (Outcome.results rows, st'))
  ∧ st'.previous_csv_file ∉ st.csv_chain

/-- A sequence of successful follow-ups. -/
inductive FollowUps {R : Type} (env : Env R) :
    PState R → List Plan → PState R → Prop where
  | nil (st : PState R) : FollowUps env st [] st
  | cons {st st' st'' : PState R} {p : Plan} {ps : List Plan} :
      FreshFollowUp env st st' p → FollowUps env st' ps st'' →
      FollowUps env st (p :: ps) st''

/-- A follow-up plan for the witnesses. -/
def planF : Plan := ⟨"under 500", [Step.reason "q2"]⟩

/-- The session state after running `planF` as a follow-up from `pst1`. -/
def pst2 : PState ℕ :=
  { previous_csv_file := "result_q2.csv"
    original_csv_file := "mouse_data.csv"
    last_results := [1, 2]
    current_product_name := some "mouse"
    csv_chain := ["mouse_data.csv", "result_q1.csv", "result_q2.csv"]
    last_generated_csv := some "result_q2.csv"
    files := [("result_q2.csv", [1, 2]), ("result_q1.csv", [1, 2]),
              ("mouse_data.csv", [1, 2])]
    storage := [("Data/mouse/result_q2.csv", [1, 2]),
                ("Data/mouse/result_q2.csv", [1, 2]),
                ("Data/mouse/result_q1.csv", [1, 2]),
                ("Data/mouse/mouse_data.csv", [1, 2])]
    logs := [("md5:find mouse",
              ⟨"Find Mouse", "mouse", "result_q1.csv",
               "Data/mouse/result_q1.csv"⟩)]
    scrapeCalls := 1 }

/-! ## Supporting lemmas -/

/-- Values produced by `pyFloat` are nonnegative. -/
theorem pyFloat_nonneg (l : List Char) (q : ℚ) (h : pyFloat l = some q) :
    0 ≤ q := by
  unfold pyFloat at h
  split at h
  · split at h
    · exact absurd h (by simp)
    · obtain rfl : (_ : ℚ) = q := Option.some.inj h
      positivity
  · split at h
    · exact absurd h (by simp)
    · obtain rfl : (_ : ℚ) = q := Option.some.inj h
      positivity
  · exact absurd h (by simp)

/-- `parse_price` is insensitive to characters other than digits and dots. -/
theorem parse_price_filter (s : String) :
    parse_price (String.mk (s.data.filter isDigitOrDot)) = parse_price s := by
  unfold parse_price
  simp [List.filter_filter]

/-! ## Claim C1 -/

/-- Claim C1 (code bug): the claim says a `Needs Approval` verdict in the
compliance narrative yields cart status `Awaiting Approval`.  In the code the
capture group `(\w+(?:-\w+)?)` cannot span a space, so a narrative carrying
the verdict `Needs Approval` — in exactly the format the repository's own
fallback `_basic_compliance_check` emits — is parsed to the token `Needs`,
which falls through to `Non Compliant`.  The comparison
`compliance_status == "Needs Approval"` in the handlers can never be true.
This theorem evaluates the embedded parse-and-map composition at the failing
input, and also records the behaviour on the other verdicts, which matches
the claim. -/
theorem c1_needs_approval_verdict_lost :
    extractComplianceStatus "**Compliance Status:** Needs Approval" = "Needs"
    ∧ checkedStatus "**Compliance Status:** Needs Approval" = "Non Compliant"
    ∧ checkedStatus "**Compliance Status:** Needs Approval" ≠ "Awaiting Approval"
    ∧ checkedStatus "**Compliance Status:** Compliant" = "Recommended"
    ∧ checkedStatus "**Compliance Status:** Non-Compliant" = "Non Compliant"
    ∧ checkedStatus "no verdict in this narrative" = "Non Compliant" := by
  decide

/-! ## Claim C10 -/

/-- Claim C10: `parse_price` is total — `None` (modelled as `Option.none`)
and every string yield a value and never an exception; the function depends
only on the digit-and-dot characters of its input; it returns `0.0` exactly
when the stripped remainder does not parse as a Python float, and the parsed
value otherwise; the result is never negative; and the docstring example
`'₹2,899'` parses to `2899`. -/
theorem c10_parse_price_total :
    parse_price_total none = 0
    ∧ (∀ s : String,
        parse_price (String.mk (s.data.filter isDigitOrDot)) = parse_price s)
    ∧ (∀ s : String, pyFloat (s.data.filter isDigitOrDot) = none →
        parse_price s = 0)
    ∧ (∀ s : String, ∀ q : ℚ, pyFloat (s.data.filter isDigitOrDot) = some q →
        parse_price s = q)
    ∧ (∀ s : String, 0 ≤ parse_price s)
    ∧ parse_price "₹2,899" = 2899 := by
  refine ⟨rfl, parse_price_filter, ?_, ?_, ?_, by decide⟩
  · intro s h
    simp [parse_price, h]
  · intro s q h
    simp [parse_price, h]
  · intro s
    unfold parse_price
    cases h : pyFloat (s.data.filter isDigitOrDot) with
    | none => simp
    | some q => simpa using pyFloat_nonneg _ q h

/-- Witness for C10 at concrete inputs: `"abc"` strips to the empty string,
which does not parse, so the price is `0`. -/
theorem c10_parse_price_total_witness :
    parse_price "abc" = 0 ∧ 0 ≤ parse_price "₹1,299.50" :=
  ⟨c10_parse_price_total.2.2.1 "abc" (by decide),
   c10_parse_price_total.2.2.2.2.1 "₹1,299.50"⟩

/-! ## Claim C4 -/

/-- Claim C4 (counterexample): with preferences unset and the query
`"need a mouse"` buffered, a preferences submission whose replay block raises
(`replayOk = false`) replays the query but leaves the pending buffer intact —
the claim's "the pending buffer is cleared" fails on this input. -/
theorem c4_counterexample :
    handle_preferences ⟨false, some "need a mouse"⟩ false
      = (⟨true, some "need a mouse"⟩, ["need a mouse"])
    ∧ some "need a mouse" ≠ (none : Option String) := by
  constructor
  · rfl
  · simp

/-- Claim C4 (amended): while preferences are unset, an incoming query is
never routed to the pipeline and is stored as the single pending query,
replacing any earlier one; on preferences submission the buffered query is
replayed exactly once, and the buffer is cleared exactly when the replay
block completes without raising (on an exception the buffer is retained);
with no buffered query nothing is replayed. -/
theorem c4_amended :
    (∀ (s : UserSession) (q : String), s.prefsSet = false →
        handle_message s q = (⟨false, some q⟩, []))
    ∧ (∀ (s : UserSession) (q : String) (ok : Bool), s.pending = some q →
        (handle_preferences s ok).2 = [q]
        ∧ (handle_preferences s ok).1.pending = (if ok then none else some q)
        ∧ (handle_preferences s ok).1.prefsSet = true)
    ∧ (∀ (s : UserSession) (ok : Bool), s.pending = none →
        (handle_preferences s ok).2 = []) := by
  refine ⟨?_, ?_, ?_⟩
  · rintro ⟨ps, pend⟩ q h
    subst h
    simp [handle_message]
  · rintro ⟨ps, pend⟩ q ok h
    subst h
    cases ok <;> simp [handle_preferences]
  · rintro ⟨ps, pend⟩ ok h
    subst h
    simp [handle_preferences]

/-- Witness for C4 at concrete inputs: a query arriving before preferences is
buffered and not executed; submitting preferences with a clean replay runs it
once and clears the buffer. -/
theorem c4_amended_witness :
    handle_message ⟨false, none⟩ "need a mouse" = (⟨false, some "need a mouse"⟩, [])
    ∧ (handle_preferences ⟨false, some "need a mouse"⟩ true).2 = ["need a mouse"]
    ∧ (handle_preferences ⟨false, some "need a mouse"⟩ true).1.pending
        = (if true then none else some "need a mouse") :=
  ⟨c4_amended.1 ⟨false, none⟩ "need a mouse" rfl,
   (c4_amended.2.1 ⟨false, some "need a mouse"⟩ "need a mouse" true rfl).1,
   (c4_amended.2.1 ⟨false, some "need a mouse"⟩ "need a mouse" true rfl).2.1⟩

/-! ## Cart state-machine lemmas -/

/-- The verdict mapping only ever produces the three compliance-derived
statuses. -/
theorem mapVerdict_cases (t : String) :
    mapVerdict t = "Recommended" ∨ mapVerdict t = "Awaiting Approval"
      ∨ mapVerdict t = "Non Compliant" := by
  unfold mapVerdict
  split
  · exact Or.inl rfl
  · split
    · exact Or.inr (Or.inl rfl)
    · exact Or.inr (Or.inr rfl)

theorem mapVerdict_mem_valid (t : String) : mapVerdict t ∈ validStatuses := by
  rcases mapVerdict_cases t with h | h | h <;> rw [h] <;> decide

theorem checkedStatus_mem_valid (n : String) :
    checkedStatus n ∈ validStatuses :=
  mapVerdict_mem_valid _

theorem checkedStatus_ne_approved (n : String) :
    checkedStatus n ≠ "Approved" := by
  rcases mapVerdict_cases (extractComplianceStatus n) with h | h | h <;>
    simp [checkedStatus, h]

theorem checkedStatus_ne_rejected (n : String) :
    checkedStatus n ≠ "Rejected" := by
  rcases mapVerdict_cases (extractComplianceStatus n) with h | h | h <;>
    simp [checkedStatus, h]

/-- Members of `setStatusFirst` either come from the cart unchanged or carry
the new status. -/
theorem mem_setStatusFirst {cart : List CartItem} {pid s : String}
    {it : CartItem} (h : it ∈ setStatusFirst cart pid s) :
    it ∈ cart ∨ it.compliance_status = s := by
  induction cart with
  | nil => simp [setStatusFirst] at h
  | cons hd tl ih =>
    unfold setStatusFirst at h
    split at h
    · rcases List.mem_cons.1 h with rfl | h2
      · exact Or.inr rfl
      · exact Or.inl (List.mem_cons_of_mem _ h2)
    · rcases List.mem_cons.1 h with rfl | h2
      · exact Or.inl (List.mem_cons_self _ _)
      · rcases ih h2 with h3 | h3
        · exact Or.inl (List.mem_cons_of_mem _ h3)
        · exact Or.inr h3

/-- Members of `removeFirst` were in the cart. -/
theorem mem_removeFirst {cart : List CartItem} {pid : String}
    {it : CartItem} (h : it ∈ removeFirst cart pid) : it ∈ cart := by
  induction cart with
  | nil => simp [removeFirst] at h
  | cons hd tl ih =>
    unfold removeFirst at h
    split at h
    · exact List.mem_cons_of_mem _ h
    · rcases List.mem_cons.1 h with rfl | h2
      · exact List.mem_cons_self _ _
      · exact List.mem_cons_of_mem _ (ih h2)

/-- Every member of a `checkAllUpdate` result carries a freshly mapped
verdict status. -/
theorem mem_checkAllUpdate {narr : ℕ → String} {cart : List CartItem}
    {i : ℕ} {it : CartItem} (h : it ∈ checkAllUpdate narr i cart) :
    ∃ j, it.compliance_status = checkedStatus (narr j) := by
  induction cart generalizing i with
  | nil => simp [checkAllUpdate] at h
  | cons hd tl ih =>
    unfold checkAllUpdate at h
    rcases List.mem_cons.1 h with rfl | h2
    · exact ⟨i, rfl⟩
    · exact ih h2

/-- Members of a `proceedPrecheck` result either are untouched cart members
or carry a freshly mapped verdict status. -/
theorem mem_proceedPrecheck {narr : ℕ → String} {cart : List CartItem}
    {i : ℕ} {it : CartItem} (h : it ∈ proceedPrecheck narr i cart) :
    it ∈ cart ∨ ∃ j, it.compliance_status = checkedStatus (narr j) := by
  induction cart generalizing i with
  | nil => simp [proceedPrecheck] at h
  | cons hd tl ih =>
    unfold proceedPrecheck at h
    rcases List.mem_cons.1 h with h1 | h2
    · by_cases hc : hd.compliance_status = "In cart"
      · rw [if_pos hc] at h1
        exact Or.inr ⟨i, by rw [h1]⟩
      · rw [if_neg hc] at h1
        exact Or.inl (h1 ▸ List.mem_cons_self _ _)
    · rcases ih h2 with h3 | h3
      · exact Or.inl (List.mem_cons_of_mem _ h3)
      · exact Or.inr h3

/-- `proceedPrecheck` leaves any item whose status is not `"In cart"` in the
cart untouched. -/
theorem proceedPrecheck_keeps_decided {narr : ℕ → String}
    {cart : List CartItem} {i : ℕ} {it : CartItem} (h : it ∈ cart)
    (hs : it.compliance_status ≠ "In cart") :
    it ∈ proceedPrecheck narr i cart := by
  induction cart generalizing i with
  | nil => simp at h
  | cons hd tl ih =>
    unfold proceedPrecheck
    rcases List.mem_cons.1 h with rfl | h2
    · rw [if_neg hs]
      exact List.mem_cons_self _ _
    · exact List.mem_cons_of_mem _ (ih h2)

/-- One handler invocation keeps every status inside the allowed set. -/
theorem cartStep_valid {cart : List CartItem} {a : CartAct}
    (h : ∀ it ∈ cart, it.compliance_status ∈ validStatuses) :
    ∀ it ∈ cartStep cart a, it.compliance_status ∈ validStatuses := by
  intro it hit
  cases a with
  | add p qty =>
    rcases List.mem_append.1 hit with h1 | h1
    · exact h it h1
    · simp at h1
      rw [h1]
      show ("In cart" : String) ∈ validStatuses
      decide
  | check pid narrative =>
    rcases mem_setStatusFirst hit with h1 | h1
    · exact h it h1
    · rw [h1]; exact checkedStatus_mem_valid _
  | checkAll narr =>
    obtain ⟨j, hj⟩ := mem_checkAllUpdate hit
    rw [hj]; exact checkedStatus_mem_valid _
  | seek pid => exact h it hit
  | accept pid =>
    rcases mem_setStatusFirst hit with h1 | h1
    · exact h it h1
    · rw [h1]; decide
  | reject pid =>
    rcases mem_setStatusFirst hit with h1 | h1
    · exact h it h1
    · rw [h1]; decide
  | remove pid => exact h it (mem_removeFirst hit)
  | proceedPO narr =>
    rcases mem_proceedPrecheck hit with h1 | h1
    · exact h it h1
    · obtain ⟨j, hj⟩ := h1
      rw [hj]; exact checkedStatus_mem_valid _

/-- Any run keeps every status inside the allowed set. -/
theorem cartRun_valid (acts : List CartAct) (cart : List CartItem)
    (h : ∀ it ∈ cart, it.compliance_status ∈ validStatuses) :
    ∀ it ∈ cartRun cart acts, it.compliance_status ∈ validStatuses := by
  induction acts generalizing cart with
  | nil => exact h
  | cons a rest ih => exact ih (cartStep cart a) (cartStep_valid h)

/-- A member of a post-step cart carrying status `"Approved"` or `"Rejected"`
either matches an item that already carried it, or the step was the
corresponding manager decision. -/
theorem cartStep_decided_source {cart : List CartItem} {a : CartAct}
    {it : CartItem} (hit : it ∈ cartStep cart a)
    {s : String} (hs : it.compliance_status = s)
    (hsa : s = "Approved" ∨ s = "Rejected") :
    (∃ it0 ∈ cart, it0.compliance_status = s)
    ∨ (∃ pid, a = CartAct.accept pid ∧ s = "Approved")
    ∨ (∃ pid, a = CartAct.reject pid ∧ s = "Rejected") := by
  have hsin : s ≠ "In cart" := by rcases hsa with rfl | rfl <;> decide
  have hsck : ∀ n, checkedStatus n ≠ s := by
    intro n
    rcases hsa with rfl | rfl
    · exact checkedStatus_ne_approved n
    · exact checkedStatus_ne_rejected n
  cases a with
  | add p qty =>
    rcases List.mem_append.1 hit with h1 | h1
    · exact Or.inl ⟨it, h1, hs⟩
    · simp at h1
      rw [h1] at hs
      exact absurd hs.symm hsin
  | check pid narrative =>
    rcases mem_setStatusFirst hit with h1 | h1
    · exact Or.inl ⟨it, h1, hs⟩
    · rw [hs] at h1
      exact absurd h1.symm (hsck narrative)
  | checkAll narr =>
    obtain ⟨j, hj⟩ := mem_checkAllUpdate hit
    rw [hs] at hj
    exact absurd hj (fun hh => hsck (narr j) hh.symm)
  | seek pid => exact Or.inl ⟨it, hit, hs⟩
  | accept pid =>
    rcases mem_setStatusFirst hit with h1 | h1
    · exact Or.inl ⟨it, h1, hs⟩
    · rw [hs] at h1
      rcases hsa with rfl | rfl
      · exact Or.inr (Or.inl ⟨pid, rfl, rfl⟩)
      · exact absurd h1.symm (by decide)
  | reject pid =>
    rcases mem_setStatusFirst hit with h1 | h1
    · exact Or.inl ⟨it, h1, hs⟩
    · rw [hs] at h1
      rcases hsa with rfl | rfl
      · exact absurd h1.symm (by decide)
      · exact Or.inr (Or.inr ⟨pid, rfl, rfl⟩)
  | remove pid => exact Or.inl ⟨it, mem_removeFirst hit, hs⟩
  | proceedPO narr =>
    rcases mem_proceedPrecheck hit with h1 | h1
    · exact Or.inl ⟨it, h1, hs⟩
    · obtain ⟨j, hj⟩ := h1
      rw [hs] at hj
      exact absurd hj (fun hh => hsck (narr j) hh.symm)

/-! ## Claim C2 -/

/-- Claim C2 (counterexample): a manager Accept click on an item whose status
is still `"In cart"` — `handle_approval_accept` checks only the product id,
never the current status — moves the item straight to `"Approved"`, so a
transition into `Approved` does not only occur from `Awaiting Approval`. -/
theorem c2_counterexample :
    cartStep [⟨⟨"p1", "Mouse", "₹100", "amazon"⟩, 1, "In cart"⟩]
        (CartAct.accept "p1")
      = [⟨⟨"p1", "Mouse", "₹100", "amazon"⟩, 1, "Approved"⟩]
    ∧ ("In cart" : String) ≠ "Awaiting Approval" := by
  constructor
  · rfl
  · decide

/-- Claim C2 (amended): over every action sequence the status of every cart
item stays in the six-value set, and a status `"Approved"`/`"Rejected"` item
can only originate from a manager accept/reject action (or from an item that
already carried that status) — but those actions apply regardless of the
item's current status, so the transition is not restricted to
`Awaiting Approval`. -/
theorem c2_status_machine :
    (∀ acts : List CartAct, ∀ it ∈ cartRun [] acts,
        it.compliance_status ∈ validStatuses)
    ∧ (∀ (cart : List CartItem) (a : CartAct), ∀ it ∈ cartStep cart a,
        it.compliance_status = "Approved" →
        (∃ it0 ∈ cart, it0.compliance_status = "Approved")
        ∨ ∃ pid, a = CartAct.accept pid)
    ∧ (∀ (cart : List CartItem) (a : CartAct), ∀ it ∈ cartStep cart a,
        it.compliance_status = "Rejected" →
        (∃ it0 ∈ cart, it0.compliance_status = "Rejected")
        ∨ ∃ pid, a = CartAct.reject pid) := by
  refine ⟨?_, ?_, ?_⟩
  · intro acts it hit
    exact cartRun_valid acts [] (by simp) it hit
  · intro cart a it hit hs
    rcases cartStep_decided_source hit hs (Or.inl rfl) with h | h | h
    · exact Or.inl h
    · exact Or.inr ⟨h.choose, h.choose_spec.1⟩
    · exact absurd h.choose_spec.2 (by decide)
  · intro cart a it hit hs
    rcases cartStep_decided_source hit hs (Or.inr rfl) with h | h | h
    · exact Or.inl h
    · exact absurd h.choose_spec.2 (by decide)
    · exact Or.inr ⟨h.choose, h.choose_spec.1⟩

/-- Witness for C2 at concrete inputs. -/
theorem c2_status_machine_witness :
    ((⟨⟨"p1", "Mouse", "₹100", "amazon"⟩, 1, "In cart"⟩ : CartItem).compliance_status
        ∈ validStatuses)
    ∧ ((∃ it0 ∈ ([⟨⟨"p1", "Mouse", "₹100", "amazon"⟩, 1, "Awaiting Approval"⟩] :
          List CartItem), it0.compliance_status = "Approved")
        ∨ ∃ pid, CartAct.accept "p1" = CartAct.accept pid) :=
  ⟨c2_status_machine.1 [CartAct.add ⟨"p1", "Mouse", "₹100", "amazon"⟩ 1]
      ⟨⟨"p1", "Mouse", "₹100", "amazon"⟩, 1, "In cart"⟩ (by decide),
   c2_status_machine.2.1
      [⟨⟨"p1", "Mouse", "₹100", "amazon"⟩, 1, "Awaiting Approval"⟩]
      (CartAct.accept "p1")
      ⟨⟨"p1", "Mouse", "₹100", "amazon"⟩, 1, "Approved"⟩ (by decide) (by decide)⟩

/-! ## Claim C8 -/

/-- Claim C8 (counterexample): `handle_check_all_compliance` iterates over
every cart item with no status filter, so a single external decision — one
`Compliant` verdict delivered by a cart-wide re-check — moves an already
`Approved` item back to `Recommended`. -/
theorem c8_counterexample :
    cartStep [⟨⟨"p1", "Mouse", "₹100", "amazon"⟩, 1, "Approved"⟩]
        (CartAct.checkAll (fun _ => "**Compliance Status:** Compliant"))
      = [⟨⟨"p1", "Mouse", "₹100", "amazon"⟩, 1, "Recommended"⟩] := by
  rfl

/-- Claim C8 (amended): forward-only progress holds for seek-approval (a pure
notification), for removal, and for the pre-PO compliance pass (which
re-checks only `"In cart"` items and keeps every decided item untouched);
but the explicit compliance checks (single-item and check-all) overwrite the
targeted items' statuses with the fresh verdict mapping regardless of their
prior status — including `Approved` and `Rejected` — as do the manager
accept/reject actions, so a decided item can move backward. -/
theorem c8_forward_only_partial :
    (∀ (cart : List CartItem) (pid : String),
        cartStep cart (CartAct.seek pid) = cart)
    ∧ (∀ (narr : ℕ → String) (i : ℕ) (cart : List CartItem), ∀ it ∈ cart,
        it.compliance_status ≠ "In cart" → it ∈ proceedPrecheck narr i cart)
    ∧ (∀ (cart : List CartItem) (pid : String), ∀ it ∈ removeFirst cart pid,
        it ∈ cart)
    ∧ (∀ (narr : ℕ → String) (cart : List CartItem),
        ∀ it ∈ cartStep cart (CartAct.checkAll narr),
        ∃ j, it.compliance_status = checkedStatus (narr j))
    ∧ (∀ (cart : List CartItem) (pid s : String),
        ∀ it ∈ setStatusFirst cart pid s,
        it ∈ cart ∨ it.compliance_status = s) := by
  refine ⟨fun _ _ => rfl, ?_, ?_, ?_, ?_⟩
  · intro narr i cart it hit hs
    exact proceedPrecheck_keeps_decided hit hs
  · intro cart pid it hit
    exact mem_removeFirst hit
  · intro narr cart it hit
    exact mem_checkAllUpdate hit
  · intro cart pid s it hit
    exact mem_setStatusFirst hit

/-- Witness for C8 at concrete inputs: the pre-PO pass keeps an `Approved`
item untouched. -/
theorem c8_forward_only_partial_witness :
    (⟨⟨"p1", "Mouse", "₹100", "amazon"⟩, 1, "Approved"⟩ : CartItem)
      ∈ proceedPrecheck (fun _ => "**Compliance Status:** Compliant") 0
          [⟨⟨"p1", "Mouse", "₹100", "amazon"⟩, 1, "Approved"⟩] :=
  c8_forward_only_partial.2.1 (fun _ => "**Compliance Status:** Compliant") 0
    [⟨⟨"p1", "Mouse", "₹100", "amazon"⟩, 1, "Approved"⟩]
    ⟨⟨"p1", "Mouse", "₹100", "amazon"⟩, 1, "Approved"⟩ (by decide) (by decide)

/-! ## Purchase-order grouping lemmas -/

theorem groupsFlat_appendToGroup (gs : List (String × List POLine))
    (v : String) (l : POLine) :
    (groupsFlat (appendToGroup gs v l)).Perm (groupsFlat gs ++ [l]) := by
  induction gs with
  | nil => simp [groupsFlat, appendToGroup]
  | cons g gs ih =>
    obtain ⟨k, ls⟩ := g
    unfold appendToGroup
    split
    · have h1 : groupsFlat ((k, ls ++ [l]) :: gs)
          = ls ++ ([l] ++ groupsFlat gs) := by
        simp [groupsFlat]
      rw [h1]
      have h2 : (([l] ++ groupsFlat gs)).Perm (groupsFlat gs ++ [l]) :=
        List.perm_append_comm
      have h3 := h2.append_left ls
      refine h3.trans ?_
      simp [groupsFlat]
    · have h1 : groupsFlat ((k, ls) :: appendToGroup gs v l)
          = ls ++ groupsFlat (appendToGroup gs v l) := by
        simp [groupsFlat]
      rw [h1]
      have h2 := ih.append_left ls
      refine h2.trans ?_
      simp [groupsFlat]

theorem groupsFlat_ensureGroup (gs : List (String × List POLine)) (v : String) :
    groupsFlat (ensureGroup gs v) = groupsFlat gs := by
  unfold ensureGroup
  split
  · rfl
  · simp [groupsFlat]

theorem groupsFlat_insertItem (gs : List (String × List POLine))
    (it : CartItem) :
    (groupsFlat (insertItem gs it)).Perm (groupsFlat gs ++ (lineOf it).toList) := by
  unfold insertItem
  cases h : lineOf it with
  | none =>
    simp [groupsFlat_ensureGroup]
  | some l =>
    simpa [groupsFlat_ensureGroup] using
      groupsFlat_appendToGroup (ensureGroup gs it.product.source)
        it.product.source l

theorem groupsFlat_foldl (its : List CartItem)
    (gs : List (String × List POLine)) :
    (groupsFlat (its.foldl insertItem gs)).Perm
      (groupsFlat gs ++ its.filterMap lineOf) := by
  induction its generalizing gs with
  | nil => simp
  | cons it rest ih =>
    have h1 := ih (insertItem gs it)
    have h2 := (groupsFlat_insertItem gs it).append_right (rest.filterMap lineOf)
    refine (List.foldl_cons .. ▸ h1).trans (h2.trans ?_)
    cases h : lineOf it with
    | none => simp [List.filterMap_cons, h]
    | some l => simp [List.filterMap_cons, h]

/-- Total of a line list versus the per-item totals: items whose price parses
to zero contribute zero either way. -/
theorem filterMap_lineOf_total (its : List CartItem) :
    ((its.filterMap lineOf).map POLine.total_amount).sum
      = (its.map (fun it => parse_price it.product.price * it.quantity)).sum := by
  induction its with
  | nil => rfl
  | cons it rest ih =>
    rw [List.map_cons, List.sum_cons]
    cases h : lineOf it with
    | none =>
      have hz : parse_price it.product.price = 0 := by
        simp only [lineOf] at h
        by_cases hz : parse_price it.product.price = 0
        · exact hz
        · simp [hz] at h
      simp only [List.filterMap_cons, h]
      rw [ih, hz]
      simp
    | some l =>
      have hl : l.total_amount = parse_price it.product.price * it.quantity := by
        simp only [lineOf] at h
        split at h
        · exact absurd h (by simp)
        · obtain rfl : _ = l := Option.some.inj h
          rfl
      simp only [List.filterMap_cons, h]
      rw [List.map_cons, List.sum_cons, ih, hl]

/-- Characterization of a generated purchase order's line items: shared by
the purchase-order claims. -/
theorem gpo_lines_spec (now : ℕ) (today : String) (cart : List CartItem)
    (po : PO) (h : generate_purchase_order now today cart = some po) :
    (poLineItems po).Perm ((cart.filter isValidStatus).filterMap lineOf)
    ∧ (∀ l ∈ poLineItems po,
        l.total_amount = l.amount_each * l.quantity ∧ l.amount_each ≠ 0)
    ∧ ((poLineItems po).map POLine.total_amount).sum
        = ((cart.filter isValidStatus).map
            (fun it => parse_price it.product.price * it.quantity)).sum := by
  simp only [generate_purchase_order] at h
  split at h
  · exact absurd h (by simp)
  · split at h
    · exact absurd h (by simp)
    · have hl : po.lines = (cart.filter isValidStatus).foldl insertItem [] :=
        (congrArg PO.lines (Option.some.inj h)).symm
      have hperm : (poLineItems po).Perm
          ((cart.filter isValidStatus).filterMap lineOf) := by
        unfold poLineItems
        rw [hl]
        simpa [groupsFlat] using
          groupsFlat_foldl (cart.filter isValidStatus) []
      refine ⟨hperm, ?_, ?_⟩
      · intro l hl
        have hl2 : l ∈ (cart.filter isValidStatus).filterMap lineOf :=
          hperm.mem_iff.1 hl
        obtain ⟨it, _, hit⟩ := List.mem_filterMap.1 hl2
        simp only [lineOf] at hit
        split at hit
        · exact absurd hit (by simp)
        · obtain rfl : _ = l := Option.some.inj hit
          exact ⟨rfl, by assumption⟩
      · rw [(hperm.map POLine.total_amount).sum_eq]
        exact filterMap_lineOf_total (cart.filter isValidStatus)

/-! ## Claim C3 -/

/-- Claim C3: for every cart, a generated purchase order's line items are, up
to vendor grouping, exactly the cart items whose status is `Recommended` or
`Approved` and whose price parses to a nonzero amount (the permutation means
no such item is missed and none is counted in more than one vendor group);
every line's extended amount is its unit amount times its quantity; and the
sum of all line amounts over all vendor groups equals the sum of
unit-price-times-quantity over all status-eligible items. -/
theorem c3_po_lines (now : ℕ) (today : String) (cart : List CartItem)
    (po : PO) (h : generate_purchase_order now today cart = some po) :
    (poLineItems po).Perm ((cart.filter isValidStatus).filterMap lineOf)
    ∧ (∀ l ∈ poLineItems po,
        l.total_amount = l.amount_each * l.quantity ∧ l.amount_each ≠ 0)
    ∧ ((poLineItems po).map POLine.total_amount).sum
        = ((cart.filter isValidStatus).map
            (fun it => parse_price it.product.price * it.quantity)).sum :=
  gpo_lines_spec now today cart po h

/-- Witness for C3 at the concrete cart `demoCart`. -/
theorem c3_po_lines_witness :
    generate_purchase_order 5 "01-01-2026" demoCart = some demoPO
    ∧ ((poLineItems demoPO).Perm
          ((demoCart.filter isValidStatus).filterMap lineOf)
        ∧ (∀ l ∈ poLineItems demoPO,
            l.total_amount = l.amount_each * l.quantity ∧ l.amount_each ≠ 0)
        ∧ ((poLineItems demoPO).map POLine.total_amount).sum
            = ((demoCart.filter isValidStatus).map
                (fun it => parse_price it.product.price * it.quantity)).sum) :=
  ⟨rfl, c3_po_lines 5 "01-01-2026" demoCart demoPO rfl⟩

/-! ## Claim C9 -/

/-- Claim C9: purchase-order generation returns `None` exactly when no cart
item has status `Recommended` or `Approved` (in particular for an empty
cart) — a normal "nothing to order" outcome; and whenever an order is
produced, every line item it contains has a nonzero unit amount, i.e. the
eligible items whose price parses to zero were excluded while generation for
the remaining items completed. -/
theorem c9_po_none_iff (now : ℕ) (today : String) (cart : List CartItem) :
    (generate_purchase_order now today cart = none
      ↔ cart.filter isValidStatus = [])
    ∧ ∀ po, generate_purchase_order now today cart = some po →
        (poLineItems po).Perm ((cart.filter isValidStatus).filterMap lineOf)
        ∧ ∀ l ∈ poLineItems po, l.amount_each ≠ 0 := by
  constructor
  · simp only [generate_purchase_order]
    split
    · next hc =>
      subst hc
      simp
    · split
      · next hv => simp [hv]
      · next hv => simp [hv]
  · intro po h
    have h3 := gpo_lines_spec now today cart po h
    exact ⟨h3.1, fun l hl => (h3.2.1 l hl).2⟩

/-- Witness for C9 at concrete inputs: a cart holding only an `"In cart"`
item yields no order, and `demoCart` yields an order whose lines all carry a
nonzero unit amount. -/
theorem c9_po_none_iff_witness :
    generate_purchase_order 7 "02-01-2026"
        [⟨⟨"p4", "Chair", "₹10", "croma"⟩, 1, "In cart"⟩] = none
    ∧ ∀ l ∈ poLineItems demoPO, l.amount_each ≠ 0 :=
  ⟨(c9_po_none_iff 7 "02-01-2026"
      [⟨⟨"p4", "Chair", "₹10", "croma"⟩, 1, "In cart"⟩]).1.mpr (by decide),
   ((c9_po_none_iff 5 "01-01-2026" demoCart).2 demoPO rfl).2⟩

/-! ## Pipeline lemmas -/

/-- The only early exit of the step loop is the scrape-failure message. -/
theorem execSteps_early_message {R : Type} (env : Env R) :
    ∀ (steps : List Step) (st : PState R) (csv : String) (results : List R)
      (reasoned : String) (o : Outcome R) (st' : PState R),
      execSteps env st steps csv results reasoned = StepsOut.early o st' →
      o = Outcome.message "❌ Failed to scrape product data. Please try again." := by
  intro steps
  induction steps with
  | nil =>
    intro st csv results reasoned o st' h
    exact absurd h (by simp [execSteps])
  | cons stp rest ih =>
    intro st csv results reasoned o st' h
    cases stp with
    | scrape kws =>
      simp only [execSteps] at h
      cases hs : env.scrape kws with
      | none =>
        rw [hs] at h
        exact (StepsOut.early.injEq .. ▸ h).1.symm
      | some fr =>
        rw [hs] at h
        exact ih _ _ _ _ _ _ h
    | reason tq =>
      simp only [execSteps] at h
      exact ih _ _ _ _ _ _ h

/-- Every outcome of `runNewSteps` is a nonempty result list, the
"no products found" message, or the scrape-failure message. -/
theorem runNewSteps_outcomes {R : Type} (env : Env R) (st : PState R)
    (plan : Plan) (o : Outcome R) (st' : PState R)
    (h : runNewSteps env st plan = (o, st')) :
    (∃ rows, rows ≠ [] ∧ o = Outcome.results rows)
    ∨ o = Outcome.message "❌ No products found matching your criteria."
    ∨ o = Outcome.message "❌ Failed to scrape product data. Please try again." := by
  unfold runNewSteps at h
  cases he : execSteps env st plan.steps "" [] "" with
  | early o1 st1 =>
    rw [he] at h
    obtain ⟨rfl, rfl⟩ : o1 = o ∧ st1 = st' := Prod.mk.injEq .. ▸ h
    exact Or.inr (Or.inr (execSteps_early_message env _ _ _ _ _ _ _ he))
  | done st1 csv results reasoned =>
    simp only [he] at h
    by_cases hres : results.isEmpty
    · rw [if_pos hres] at h
      exact Or.inr (Or.inl (Prod.mk.injEq .. ▸ h).1.symm)
    · rw [if_neg hres] at h
      exact Or.inl ⟨results, fun hn => hres (hn ▸ rfl),
        (Prod.mk.injEq .. ▸ h).1.symm⟩

/-! ## Claim C5 -/

/-- Claim C5: when the session has no artifact chain — no previous result CSV
recorded (`previous_csv_file` empty) or the recorded file absent — a plan the
classifier labelled follow-up is re-dispatched unchanged through the
new-query handler, and that handler's outcome is always a returned result
list or a terminal message (`no products found`, or the scrape-failure
message when the catalog collaborator yields nothing), never a propagated
exception. -/
theorem c5_follow_up_missing_context {R : Type} (env : Env R) (st : PState R)
    (plan : Plan)
    (h : st.previous_csv_file = ""
          ∨ (alookup st.files st.previous_csv_file).isNone) :
    handle_follow_up env st plan = handle_new_query env st plan
    ∧ ∀ o st', handle_new_query env st plan = (o, st') →
        (∃ rows, o = Outcome.results rows)
        ∨ o = Outcome.message "❌ No products found matching your criteria."
        ∨ o = Outcome.message "❌ Failed to scrape product data. Please try again." := by
  constructor
  · unfold handle_follow_up
    rw [if_pos h]
  · intro o st' hn
    unfold handle_new_query at hn
    cases hc : check_query_exists env st plan.original_query with
    | some entry =>
      simp only [hc] at hn
      cases hd : alookup st.storage entry.firebase_path with
      | some rows =>
        simp only [hd] at hn
        exact Or.inl ⟨rows, (Prod.mk.injEq .. ▸ hn).1.symm⟩
      | none =>
        simp only [hd] at hn
        rcases runNewSteps_outcomes env st plan o st' hn with ⟨r, _, hr⟩ | hr | hr
        · exact Or.inl ⟨r, hr⟩
        · exact Or.inr (Or.inl hr)
        · exact Or.inr (Or.inr hr)
    | none =>
      simp only [hc] at hn
      rcases runNewSteps_outcomes env st plan o st' hn with ⟨r, _, hr⟩ | hr | hr
      · exact Or.inl ⟨r, hr⟩
      · exact Or.inr (Or.inl hr)
      · exact Or.inr (Or.inr hr)

/-- Witness for C5 at a session with no previous CSV. -/
theorem c5_follow_up_missing_context_witness :
    handle_follow_up env0 pst0 plan1 = handle_new_query env0 pst0 plan1
    ∧ ∀ o st', handle_new_query env0 pst0 plan1 = (o, st') →
        (∃ rows, o = Outcome.results rows)
        ∨ o = Outcome.message "❌ No products found matching your criteria."
        ∨ o = Outcome.message "❌ Failed to scrape product data. Please try again." :=
  c5_follow_up_missing_context env0 pst0 plan1 (Or.inl rfl)

theorem alookup_cons_self {α : Type} (l : List (String × α)) (k : String)
    (v : α) : alookup ((k, v) :: l) k = some v := by
  simp [alookup]

/-- After a successful New query taking the scrape-and-reason path, the
Firestore log holds an entry under the hash of the origin query whose storage
blob carries exactly the returned rows. -/
theorem runNewSteps_success_cache {R : Type} (env : Env R) (hwf : env.WF)
    (st0 st1 : PState R) (q : String) (kws : List String) (tq : String)
    (rows : List R)
    (hrun : runNewSteps env st0 ⟨q, [Step.scrape kws, Step.reason tq]⟩
              = (Outcome.results rows, st1)) :
    ∃ e, alookup st1.logs (generate_query_hash env q) = some e
       ∧ alookup st1.storage e.firebase_path = some rows := by
  unfold runNewSteps at hrun
  cases hs : env.scrape kws with
  | none =>
    simp [execSteps, hs] at hrun
  | some fr =>
    obtain ⟨f0, R0⟩ := fr
    simp only [execSteps, reasoner_process, hs, alookup_cons_self] at hrun
    cases hr : env.reason tq R0 with
    | fail =>
      simp [hr] at hrun
    | ok R1 f1 =>
      have hf1 : f1 ≠ "" := hwf.2 tq R0 R1 f1 hr
      simp only [hr, alookup_cons_self, Option.isSome_some, if_true,
        logQueryIfNeeded, if_neg hf1] at hrun
      by_cases hre : R1.isEmpty
      · rw [if_pos hre] at hrun
        simp at hrun
      · rw [if_neg hre] at hrun
        obtain ⟨ho, hst⟩ : _ ∧ _ := Prod.mk.injEq .. ▸ hrun
        obtain rfl : R1 = rows := Outcome.results.inj ho
        subst hst
        exact ⟨_, alookup_cons_self _ _ _, alookup_cons_self _ _ _⟩

/-- The cache-entry guarantee of a successful New query, covering both the
cache-served and the freshly scraped path. -/
theorem handle_new_query_success_cache {R : Type} (env : Env R) (hwf : env.WF)
    (st0 st1 : PState R) (q : String) (kws : List String) (tq : String)
    (rows : List R)
    (hrun : handle_new_query env st0 ⟨q, [Step.scrape kws, Step.reason tq]⟩
              = (Outcome.results rows, st1)) :
    ∃ e, alookup st1.logs (generate_query_hash env q) = some e
       ∧ alookup st1.storage e.firebase_path = some rows := by
  unfold handle_new_query at hrun
  cases hc : check_query_exists env st0 q with
  | some entry =>
    simp only [hc] at hrun
    cases hd : alookup st0.storage entry.firebase_path with
    | some r =>
      simp only [hd] at hrun
      obtain ⟨ho, hst⟩ : _ ∧ _ := Prod.mk.injEq .. ▸ hrun
      obtain rfl : r = rows := Outcome.results.inj ho
      subst hst
      exact ⟨entry, hc, hd⟩
    | none =>
      simp only [hd] at hrun
      exact runNewSteps_success_cache env hwf st0 st1 q kws tq rows hrun
  | none =>
    simp only [hc] at hrun
    exact runNewSteps_success_cache env hwf st0 st1 q kws tq rows hrun

/-! ## Claim C6 -/

/-- Claim C6: the cache key is the (stable) hash of the lower-cased, stripped
origin query, so two origin strings identical after case-folding and
trimming share a key; and after a New query completed successfully (its
result logged when it ran the scrape path), a second New invocation whose
origin normalizes identically is answered with the same rows from the cached
artifact, with the catalog-search collaborator not invoked again (the
scraper-invocation counter is unchanged). -/
theorem c6_cached_second_query {R : Type} (env : Env R) (hwf : env.WF)
    (st0 st1 : PState R) (q1 q2 : String) (kws : List String) (tq : String)
    (rows : List R) (plan2 : Plan)
    (hnorm : normalizeQuery q1 = normalizeQuery q2)
    (hq2 : plan2.original_query = q2)
    (hrun : handle_new_query env st0 ⟨q1, [Step.scrape kws, Step.reason tq]⟩
              = (Outcome.results rows, st1)) :
    generate_query_hash env q1 = generate_query_hash env q2
    ∧ ∃ st2, handle_new_query env st1 plan2 = (Outcome.results rows, st2)
        ∧ st2.scrapeCalls = st1.scrapeCalls := by
  have hhash : generate_query_hash env q1 = generate_query_hash env q2 := by
    unfold generate_query_hash
    rw [hnorm]
  refine ⟨hhash, ?_⟩
  obtain ⟨e, he, hstore⟩ :=
    handle_new_query_success_cache env hwf st0 st1 q1 kws tq rows hrun
  have hc2 : check_query_exists env st1 plan2.original_query = some e := by
    rw [hq2]
    show alookup st1.logs (generate_query_hash env q2) = some e
    rw [← hhash]
    exact he
  refine ⟨{ st1 with
            files := ("cached_" ++ e.csv_file_name, rows) :: st1.files
            last_results := rows
            previous_csv_file := "cached_" ++ e.csv_file_name
            original_csv_file := "cached_" ++ e.csv_file_name
            current_product_name := some e.product_name
            csv_chain := ["cached_" ++ e.csv_file_name] }, ?_, rfl⟩
  unfold handle_new_query
  simp only [hc2, hstore]

/-- The demo environment satisfies the generated-filename well-formedness. -/
theorem env0_wf : env0.WF := by
  constructor
  · intro kws f rows h
    simp only [env0] at h
    obtain ⟨h1, -⟩ : _ ∧ _ := Prod.mk.injEq .. ▸ Option.some.inj h
    rw [← h1]
    decide
  · intro tq rs rows f h
    simp only [env0] at h
    obtain ⟨-, h2⟩ := RResult.ok.inj h
    rw [← h2]
    intro hemp
    have hlen := congrArg String.length hemp
    simp [String.length_append] at hlen
    exact absurd hlen.1.1 (by decide)

/-- Witness for C6: `"Find Mouse"` then `"FIND MOUSE  "` — the second run is
served the same two rows without another scraper call. -/
theorem c6_cached_second_query_witness :
    generate_query_hash env0 "Find Mouse" = generate_query_hash env0 "FIND MOUSE  "
    ∧ ∃ st2, handle_new_query env0 pst1
          ⟨"FIND MOUSE  ", [Step.scrape ["mouse"], Step.reason "q2"]⟩
          = (Outcome.results [1, 2], st2)
        ∧ st2.scrapeCalls = pst1.scrapeCalls :=
  c6_cached_second_query env0 env0_wf pst0 pst1 "Find Mouse" "FIND MOUSE  "
    ["mouse"] "q1" [1, 2]
    ⟨"FIND MOUSE  ", [Step.scrape ["mouse"], Step.reason "q2"]⟩
    (by decide) rfl rfl

/-! ## Artifact-chain lemmas -/

theorem alookup_cons_ne {α : Type} (l : List (String × α)) (k k' : String)
    (v : α) (h : k' ≠ k) : alookup ((k, v) :: l) k' = alookup l k' := by
  simp [alookup, List.find?_cons, Ne.symm h]

theorem chainSubsets_congr {R : Type} {fs fs' : List (String × List R)} :
    ∀ c : List String, (∀ x ∈ c, rowsOf fs' x = rowsOf fs x) →
      chainSubsets fs c → chainSubsets fs' c
  | [], _, _ => trivial
  | [_], _, _ => trivial
  | a :: b :: rest, he, hc => by
    obtain ⟨h1, h2⟩ := hc
    refine ⟨?_, chainSubsets_congr (b :: rest)
      (fun x hx => he x (List.mem_cons_of_mem _ hx)) h2⟩
    rw [he a (by simp), he b (by simp)]
    exact h1

theorem chainSubsets_concat {R : Type} {fs : List (String × List R)} :
    ∀ (c : List String) (f : String), chainSubsets fs c →
      (∀ t, c.getLast? = some t → rowsOf fs f ⊆ rowsOf fs t) →
      chainSubsets fs (c ++ [f])
  | [], _, _, _ => trivial
  | [a], f, _, hl => ⟨hl a rfl, trivial⟩
  | a :: b :: rest, f, hc, hl => by
    obtain ⟨h1, h2⟩ := hc
    exact ⟨h1, chainSubsets_concat (b :: rest) f h2
      (fun t ht => hl t (by simpa using ht))⟩

theorem followup_step_inv {R : Type} (env : Env R) (hwf : env.WF)
    (hsh : ReasonShrinks env) {st st' : PState R} {p : Plan}
    (hinv : ChainInv st) (hstep : FreshFollowUp env st st' p) :
    ChainInv st' ∧ st'.csv_chain = st.csv_chain ++ [st'.previous_csv_file] := by
  obtain ⟨⟨rows, hfu⟩, hfresh⟩ := hstep
  obtain ⟨hne, hlast, hmem, hsub⟩ := hinv
  have hprevmem : st.previous_csv_file ∈ st.csv_chain :=
    List.mem_of_mem_getLast? (Option.mem_def.mpr hlast)
  obtain ⟨hprevne, hprevsome⟩ := hmem _ hprevmem
  obtain ⟨input, hinput⟩ := Option.isSome_iff_exists.mp hprevsome
  have hcond : ¬(st.previous_csv_file = ""
      ∨ (alookup st.files st.previous_csv_file).isNone = true) := by
    rw [hinput]
    simp [hprevne]
  unfold handle_follow_up at hfu
  rw [if_neg hcond] at hfu
  cases hhd : p.steps.head? with
  | none =>
    simp [hhd] at hfu
  | some stp =>
    cases stp with
    | scrape kws =>
      simp [hhd] at hfu
    | reason tq =>
      simp only [hhd, reasoner_process, hinput] at hfu
      cases hr : env.reason tq input with
      | fail =>
        simp [hr] at hfu
      | ok R1 f1 =>
        have hf1 : f1 ≠ "" := hwf.2 tq input R1 f1 hr
        simp only [hr, alookup_cons_self, Option.isSome_some, if_true] at hfu
        by_cases hre : R1.isEmpty
        · rw [if_pos hre] at hfu
          simp at hfu
        · rw [if_neg hre] at hfu
          obtain ⟨-, hst⟩ : _ ∧ _ := Prod.mk.injEq .. ▸ hfu
          subst hst
          refine ⟨⟨by simp, List.getLast?_concat _, ?_, ?_⟩, rfl⟩
          · intro g hg
            rcases List.mem_append.1 hg with hg2 | hg2
            · have hgne : g ≠ f1 := fun h => hfresh (h ▸ hg2)
              obtain ⟨h1, h2⟩ := hmem g hg2
              refine ⟨h1, ?_⟩
              show (alookup ((f1, R1) :: st.files) g).isSome = true
              rw [alookup_cons_ne _ _ _ _ hgne]
              exact h2
            · simp only [List.mem_singleton] at hg2
              subst hg2
              refine ⟨hf1, ?_⟩
              show (alookup ((g, R1) :: st.files) g).isSome = true
              rw [alookup_cons_self]
              rfl
          · have hcongr : ∀ x ∈ st.csv_chain,
                rowsOf ((f1, R1) :: st.files) x = rowsOf st.files x := by
              intro x hx
              have hxne : x ≠ f1 := fun h => hfresh (h ▸ hx)
              simp [rowsOf, alookup_cons_ne _ _ _ _ hxne]
            refine chainSubsets_concat _ _
              (chainSubsets_congr _ hcongr hsub) ?_
            intro t ht
            have hteq : t = st.previous_csv_file := by
              rw [hlast] at ht
              exact (Option.some.inj ht).symm
            subst hteq
            have h1 : rowsOf ((f1, R1) :: st.files) f1 = R1 := by
              simp [rowsOf, alookup_cons_self]
            have h2 : rowsOf ((f1, R1) :: st.files) st.previous_csv_file
                = input := by
              have hne2 : st.previous_csv_file ≠ f1 :=
                fun h => hfresh (h ▸ hprevmem)
              simp [rowsOf, alookup_cons_ne _ _ _ _ hne2, hinput]
            rw [h1, h2]
            exact hsh tq input R1 f1 hr

theorem cached_name_ne_empty (t : String) : "cached_" ++ t ≠ "" := by
  intro h
  have hlen := congrArg String.length h
  simp [String.length_append] at hlen
  exact absurd hlen.1 (by decide)

theorem followups_inv {R : Type} (env : Env R) (hwf : env.WF)
    (hsh : ReasonShrinks env) {ps : List Plan} {st st' : PState R}
    (h : FollowUps env st ps st') (hinv : ChainInv st) :
    ChainInv st'
    ∧ ∃ ext, st'.csv_chain = st.csv_chain ++ ext ∧ ext.length = ps.length := by
  induction h with
  | nil => exact ⟨hinv, [], by simp, rfl⟩
  | @cons stA stB stC p1 ps1 hstep hrest ih =>
    obtain ⟨hinv1, heq1⟩ := followup_step_inv env hwf hsh hinv hstep
    obtain ⟨hinv2, ext, hext, hlen⟩ := ih hinv1
    refine ⟨hinv2, stB.previous_csv_file :: ext, ?_, by simp [hlen]⟩
    rw [hext, heq1, List.append_assoc]
    rfl

theorem handle_new_query_chain_inv {R : Type} (env : Env R) (hwf : env.WF)
    (hsh : ReasonShrinks env) {st0 st1 : PState R} {q : String}
    {kws : List String} {tq : String} {rows : List R}
    (hrun : handle_new_query env st0 ⟨q, [Step.scrape kws, Step.reason tq]⟩
              = (Outcome.results rows, st1)) :
    ChainInv st1 ∧ (st1.csv_chain.length = 1 ∨ st1.csv_chain.length = 2) := by
  have hsteps : ∀ st0' : PState R,
      runNewSteps env st0' ⟨q, [Step.scrape kws, Step.reason tq]⟩
        = (Outcome.results rows, st1) →
      ChainInv st1 ∧ (st1.csv_chain.length = 1 ∨ st1.csv_chain.length = 2) := by
    intro st0' hrun'
    unfold runNewSteps at hrun'
    cases hs : env.scrape kws with
    | none =>
      simp [execSteps, hs] at hrun'
    | some fr =>
      obtain ⟨f0, R0⟩ := fr
      have hf0 : f0 ≠ "" := hwf.1 kws f0 R0 hs
      simp only [execSteps, reasoner_process, hs, alookup_cons_self] at hrun'
      cases hr : env.reason tq R0 with
      | fail =>
        simp [hr] at hrun'
      | ok R1 f1 =>
        have hf1 : f1 ≠ "" := hwf.2 tq R0 R1 f1 hr
        simp only [hr, alookup_cons_self, Option.isSome_some, if_true,
          logQueryIfNeeded, if_neg hf1] at hrun'
        by_cases hre : R1.isEmpty
        · rw [if_pos hre] at hrun'
          simp at hrun'
        · rw [if_neg hre] at hrun'
          obtain ⟨-, hst⟩ : _ ∧ _ := Prod.mk.injEq .. ▸ hrun'
          subst hst
          refine ⟨⟨by simp, rfl, ?_, ?_⟩, Or.inr rfl⟩
          · intro g hg
            rcases List.mem_cons.1 hg with hg2 | hg2
            · rw [hg2]
              refine ⟨hf0, ?_⟩
              show (alookup ((f1, R1) :: (f0, R0) :: st0'.files) f0).isSome
                = true
              by_cases h01 : f0 = f1
              · rw [h01, alookup_cons_self]
                rfl
              · rw [alookup_cons_ne _ _ _ _ h01, alookup_cons_self]
                rfl
            · have hg3 : g = f1 := by simpa using hg2
              rw [hg3]
              refine ⟨hf1, ?_⟩
              show (alookup ((f1, R1) :: (f0, R0) :: st0'.files) f1).isSome
                = true
              rw [alookup_cons_self]
              rfl
          · refine ⟨?_, trivial⟩
            have h1 : rowsOf ((f1, R1) :: (f0, R0) :: st0'.files) f1 = R1 := by
              simp [rowsOf, alookup_cons_self]
            by_cases h01 : f0 = f1
            · subst h01
              rw [h1]
              exact fun a ha => ha
            · have h2 : rowsOf ((f1, R1) :: (f0, R0) :: st0'.files) f0 = R0 := by
                simp [rowsOf, alookup_cons_ne _ _ _ _ h01, alookup_cons_self]
              rw [h1, h2]
              exact hsh tq R0 R1 f1 hr
  unfold handle_new_query at hrun
  cases hc : check_query_exists env st0 q with
  | some entry =>
    simp only [hc] at hrun
    cases hd : alookup st0.storage entry.firebase_path with
    | some r =>
      simp only [hd] at hrun
      obtain ⟨ho, hst⟩ : _ ∧ _ := Prod.mk.injEq .. ▸ hrun
      obtain rfl : r = rows := Outcome.results.inj ho
      subst hst
      refine ⟨⟨by simp, rfl, ?_, trivial⟩, Or.inl rfl⟩
      intro g hg
      simp only [List.mem_singleton] at hg
      rw [hg]
      refine ⟨cached_name_ne_empty _, ?_⟩
      show (alookup (("cached_" ++ entry.csv_file_name, r) :: st0.files)
              ("cached_" ++ entry.csv_file_name)).isSome = true
      rw [alookup_cons_self]
      rfl
    | none =>
      simp only [hd] at hrun
      exact hsteps st0 hrun
  | none =>
    simp only [hc] at hrun
    exact hsteps st0 hrun

/-! ## Claim C7 -/

/-- Claim C7: starting from a successful New query (which re-roots the chain:
its chain has length 1, the cached root, or 2, the scraped root plus its
filtering artifact — independent of any prior chain) followed by any number of
successful follow-ups with fresh artifact names, under the filter
collaborator's narrowing contract: the final chain extends the New query's
chain by exactly one artifact per follow-up (so its length is one for the
root plus one per successful filtering step), adjacent artifacts' row sets
shrink along the whole chain, and the active CSV is the chain's tail. -/
theorem c7_artifact_chain {R : Type} (env : Env R) (hwf : env.WF)
    (hsh : ReasonShrinks env) (st0 st1 st2 : PState R) (q : String)
    (kws : List String) (tq : String) (rows : List R) (plans : List Plan)
    (hnew : handle_new_query env st0 ⟨q, [Step.scrape kws, Step.reason tq]⟩
              = (Outcome.results rows, st1))
    (hfus : FollowUps env st1 plans st2) :
    (st1.csv_chain.length = 1 ∨ st1.csv_chain.length = 2)
    ∧ (∃ ext, st2.csv_chain = st1.csv_chain ++ ext
        ∧ ext.length = plans.length)
    ∧ st2.csv_chain.length = st1.csv_chain.length + plans.length
    ∧ chainSubsets st2.files st2.csv_chain
    ∧ st2.csv_chain.getLast? = some st2.previous_csv_file := by
  obtain ⟨hinv1, hlen1⟩ := handle_new_query_chain_inv env hwf hsh hnew
  obtain ⟨hinv2, ext, hext, hlen⟩ := followups_inv env hwf hsh hfus hinv1
  refine ⟨hlen1, ⟨ext, hext, hlen⟩, ?_, hinv2.2.2.2, hinv2.2.1⟩
  rw [hext, List.length_append, hlen]

/-- The demo reasoner keeps exactly its input rows, so it narrows. -/
theorem env0_shrinks : ReasonShrinks env0 := by
  intro tq rs rows f h
  simp only [env0] at h
  obtain ⟨h1, -⟩ := RResult.ok.inj h
  rw [← h1]
  exact fun a ha => ha

/-- Witness for C7: a New query followed by one successful follow-up. -/
theorem c7_artifact_chain_witness :
    (pst1.csv_chain.length = 1 ∨ pst1.csv_chain.length = 2)
    ∧ (∃ ext, pst2.csv_chain = pst1.csv_chain ++ ext
        ∧ ext.length = [planF].length)
    ∧ pst2.csv_chain.length = pst1.csv_chain.length + [planF].length
    ∧ chainSubsets pst2.files pst2.csv_chain
    ∧ pst2.csv_chain.getLast? = some pst2.previous_csv_file :=
  c7_artifact_chain env0 env0_wf env0_shrinks pst0 pst1 pst2 "Find Mouse"
    ["mouse"] "q1" [1, 2] [planF] rfl
    (FollowUps.cons ⟨⟨[1, 2], rfl⟩, by decide⟩ (FollowUps.nil pst2))
